/-
Verification of the duplicate-post guard and tidy-reshaping logic of the
mtdickey/twitterbots repository (DMV_COVID19 and SunsetWxBot).

The code under src/ is modelled shallowly:
  * `tidy_timeseries`, `RonaTweeter.new_case_curve`, `RonaTweeter.plot_timeseries`,
    `RonaTweeter.send_tweet`, `RonaTweeter.new_tweet_log`, `main`
    from src/DMV_COVID19/tweet_updates.py;
  * `tweet_image` and `tweet_gif` from src/DMV_COVID19/tweet_maps.py;
  * `SunTweeter.send_tweet`, `SunTweeter.update_log_record`, `main`
    from src/SunsetWxBot/tweet_updates.py.

Modelling conventions:
  * pandas Timestamps become the `Date` structure below; pandas missing values
    (NaN / NaT) become `Option`, and a comparison against a missing value is
    `false`, matching pandas semantics;
  * DataFrames become lists of row structures; the date columns of the wide
    USAFacts frame are carried separately (`WideFrame.dateCols`), each row
    carrying the cell values of those columns in order;
  * string parsing of dates (`datetime.strptime`) is not remodelled: date
    columns are carried as already-parsed `Date`s, which is faithful because
    `strptime` on the well-formed column labels is a bijection onto dates;
  * Python exceptions (KeyError, TypeError on `int(series)`, AttributeError on
    `NaT.strftime`, failed `requests.get` / `read_csv`) become `Option`/`Except`
    `none`/`error` results that propagate;
  * the Python thousands-separator formatting of counts is modelled as plain
    `toString n` (digit grouping is presentation only);
  * the `county` parameter of `tidy_timeseries`/`RonaTweeter` is always `None`
    in `main`; the county branch is outside every claim and is not modelled.
-/
import Mathlib

namespace Twitterbots

/-- Calendar date, ordered lexicographically (year, month, day) exactly as
`datetime` objects compare. -/
structure Date where
  year : Nat
  month : Nat
  day : Nat
deriving DecidableEq, Repr

/-- Strict `datetime` comparison `a < b`. -/
def Date.lt (a b : Date) : Bool :=
  Nat.blt a.year b.year ||
    (a.year == b.year &&
      (Nat.blt a.month b.month || (a.month == b.month && Nat.blt a.day b.day)))

/-- The cutoff date 2020-03-09: `tidy_timeseries` keeps only dates strictly
after this one. -/
def cutoffDate : Date := ⟨2020, 3, 9⟩

/-- One county row of the wide USAFacts CSV: the identifying columns
`countyFIPS`, `County Name`, `State`, `stateFIPS`, followed by the cells of the
date columns in order (`values.length = dateCols.length` of the frame). -/
structure WideRow where
  countyFIPS : Int
  countyName : String
  state : String
  stateFIPS : Int
  values : List Int
deriving DecidableEq, Repr

/-- The wide USAFacts frame: its date columns (already parsed) and its county
rows.  The `Unnamed:` junk columns dropped at the top of `tidy_timeseries` are
not part of the model. -/
structure WideFrame where
  dateCols : List Date
  rows : List WideRow
deriving DecidableEq, Repr

/-- Sum of column `j` over a list of county rows: the groupby-sum aggregate
over the State column for one date column (missing cells read as 0; in the
CSV every row has a cell for every date column). -/
def groupSum (rows : List WideRow) (j : Nat) : Int :=
  (rows.map (fun r => r.values.getD j 0)).sum

/-- The melt step: `pd.melt` after grouping by State produces one output row
per (date column, group) pair, stacked date-column-major exactly as `melt`
stacks the `value_vars`.  The value of the `(s, d)` row is the sum of the
state `s` county cells in column `d`. -/
def meltGroups (dateCols : List Date) (rows : List WideRow)
    (groups : List String) : List (String × Date × Int) :=
  dateCols.enum.flatMap fun p =>
    groups.map fun s => (s, p.2, groupSum (rows.filter (fun r => r.state == s)) p.1)

/-- One row of the tidy frame produced by `tidy_timeseries`: state, parsed
date, the cumulative series value, the shifted value `lag1` and the day-over-day
difference `new` (both `none` on the first retained row, where pandas puts
NaN). -/
structure TidyRow where
  state : String
  date : Date
  value : Int
  lag1 : Option Int
  new : Option Int
deriving DecidableEq, Repr

/-- The lagged-difference columns: lag1 is the series value shifted by one
row and new is the difference, so the model threads the value of the
previous row down the melted list. -/
def addLag (prev : Option Int) : List (String × Date × Int) → List TidyRow
  | [] => []
  | (s, d, v) :: rest =>
      ⟨s, d, v, prev, prev.map (fun p => v - p)⟩ :: addLag (some v) rest

/-- The county rows `tidy_timeseries` keeps for the two branches `main`
exercises: a single state, or All (DC/MD/VA). -/
def selRows (f : WideFrame) (state : String) : List WideRow :=
  if state = "All" then
    f.rows.filter (fun r => r.state == "DC" || r.state == "MD" || r.state == "VA")
  else
    f.rows.filter (fun r => r.state == state)

/-- The groups that grouping by State produces on the kept rows: one
(alphabetically sorted) group per state present in the subset — and no group
at all when the subset is empty. -/
def selGroups (f : WideFrame) (state : String) : List String :=
  if state = "All" then
    (["DC", "MD", "VA"]).filter (fun s => (selRows f state).any (fun r => r.state == s))
  else
    if (selRows f state).isEmpty then [] else [state]

/-- The function `tidy_timeseries(data, state, series_type, county=None)`:
group, melt, restrict to dates strictly after 2020-03-09 and add the lagged
difference columns.  `none` models the KeyError the date-format sniff of the
first date_str cell raises when the melted frame is empty (selected state
absent, or no date columns at all). -/
def tidy_timeseries (f : WideFrame) (state : String) : Option (List TidyRow) :=
  let melted := meltGroups f.dateCols (selRows f state) (selGroups f state)
  if melted.isEmpty then none
  else some (addLag none (melted.filter (fun t => cutoffDate.lt t.2.1)))

/-! ## The DMV_COVID19 tweeting pipeline (src/DMV_COVID19/tweet_updates.py) -/

/-- The `STATES` lookup of display names (DC maps to D.C, and so on).  Only
the four keys below are ever looked up by `main`. -/
def locName (state : String) : String :=
  if state == "DC" then "D.C"
  else if state == "MD" then "Maryland"
  else if state == "VA" then "Virginia"
  else if state == "All" then "the DMV"
  else ""

/-- Status phrase of the series in `DF_DICT`. -/
def seriesStatus (series : String) : String :=
  if series == "Confirmed" then "confirmed cases of"
  else if series == "Deaths" then "deaths from"
  else ""

/-- New-case status phrase of the series in `DF_DICT`. -/
def newCaseStatusPhrase (series : String) : String :=
  if series == "Confirmed" then "new reported cases of"
  else if series == "Deaths" then "new reported deaths of"
  else ""

/-- Zero-padded two-digit rendering, as `%m`/`%d` in `strftime`. -/
def pad2 (n : Nat) : String :=
  if n < 10 then "0" ++ toString n else toString n

/-- Month abbreviation as `strftime` renders `%b`. -/
def monthAbbrev (m : Nat) : String :=
  match m with
  | 1 => "Jan" | 2 => "Feb" | 3 => "Mar" | 4 => "Apr"
  | 5 => "May" | 6 => "Jun" | 7 => "Jul" | 8 => "Aug"
  | 9 => "Sep" | 10 => "Oct" | 11 => "Nov" | 12 => "Dec"
  | _ => ""

/-- ISO date as `strftime` renders `%Y-%m-%d`. -/
def dateISO (d : Date) : String :=
  toString d.year ++ "-" ++ pad2 d.month ++ "-" ++ pad2 d.day

/-- Title date as `strftime` renders `%b. %d, %Y`. -/
def dateTitle (d : Date) : String :=
  monthAbbrev d.month ++ ". " ++ pad2 d.day ++ ", " ++ toString d.year

/-- One row of `log/DMV_COVID19_full_tweet_log.csv` / of the in-memory
`log_df`, with exactly the columns `new_tweet_log` writes.  Note there is no
series column. -/
structure LogRecord where
  status : Option String
  plotFilepath : Option String
  dataDate : Date
  location : String
  newCasePlotFilepath : Option String
  newCaseStatus : Option String
deriving DecidableEq, Repr

/-- Maximum of a date column (`Series.max()`): `none` models NaN/NaT on an
empty column. -/
def maxDate : List Date → Option Date
  | [] => none
  | d :: rest =>
      match maxDate rest with
      | none => some d
      | some m => if m.lt d then some d else some m

/-- The pandas guard comparing the maximum tidy date against
`max_dt_state_history`: any comparison involving a missing value (NaT / NaN)
is `False`. -/
def newerThanLog (maxTidy maxHist : Option Date) : Bool :=
  match maxHist, maxTidy with
  | some h, some t => h.lt t
  | _, _ => false

/-- The filter keeping rows whose new value is non-negative: NaN compares
`False`. -/
def nonNegNew (r : TidyRow) : Bool :=
  match r.new with
  | some v => decide (0 ≤ v)
  | none => false

/-- The method `RonaTweeter.new_case_curve`: restrict to rows with
non-negative `new`,
take the newest remaining date, report the `new` value of that single row and
compose the status text.  Returns `(logged data_date, reported count, status)`;
`none` models the Python exception when the filtered frame is empty
(`.strftime` on NaN) or when several rows share the newest date (`int` on a
multi-element Series). -/
def new_case_curve (tidy : List TidyRow) (state series : String) :
    Option (Date × Int × String) :=
  match maxDate ((tidy.filter nonNegNew).map (fun r => r.date)) with
  | none => none
  | some d =>
      match (tidy.filter nonNegNew).filter (fun r => r.date == d) with
      | [r] =>
          some (d, r.new.getD 0,
            "There were " ++ toString (r.new.getD 0) ++ " " ++
              newCaseStatusPhrase series ++ " COVID-19 in " ++ locName state ++
              " on " ++ dateTitle d ++ ".\nSource: @usafacts #MadewithUSAFacts.")
      | _ => none

/-- Filename composed in `new_case_curve`. -/
def newCaseFilename (state series : String) (d : Date) : String :=
  "plots/new_curve_" ++ locName state ++ "_" ++ series ++ "_" ++ dateISO d ++ ".png"

/-- Filename composed in `plot_timeseries`. -/
def tsFilename (state series : String) (d : Date) : String :=
  "plots/" ++ locName state ++ "_" ++ series ++ "_" ++ dateISO d ++ ".png"

/-- The `current_date_df` of `RonaTweeter.plot_timeseries`: the tidy rows at
date `d`, in descending order of value (`sort_values(ascending=False)`; ties
are in an unspecified order in pandas, the model uses a stable sort). -/
def currentRows (tidy : List TidyRow) (d : Date) : List TidyRow :=
  (tidy.filter (fun r => r.date == d)).mergeSort
    (fun a b => decide (b.value ≤ a.value))

/-- The method `RonaTweeter.plot_timeseries`: the status sums the series
values at the
newest tidy date and lists the per-state values in descending order.  Returns
`(logged data_date, summed count, status)`; `none` models the exception on an
empty tidy frame. -/
def plot_timeseries (tidy : List TidyRow) (state series : String) :
    Option (Date × Int × String) :=
  match maxDate (tidy.map (fun r => r.date)) with
  | none => none
  | some d =>
      some (d, ((currentRows tidy d).map (fun r => r.value)).sum,
        "There have been " ++ toString ((currentRows tidy d).map (fun r => r.value)).sum ++
          " " ++ seriesStatus series ++ " COVID-19 in " ++ locName state ++
          ", as of " ++ dateTitle d ++ ".\n\n" ++
          (currentRows tidy d).foldl
            (fun acc r => acc ++ r.state ++ ": " ++ toString r.value ++ "\n") "" ++
          "\nSource: @usafacts #MadewithUSAFacts.")

/-- Result of one `RonaTweeter.send_tweet` call: whether `api.update_status`
ran, and the single record `new_tweet_log` put into the instance `log_df`
(`none` when the guard failed and `log_df` stayed `None`). -/
structure SendResult where
  posted : Bool
  logEntry : Option LogRecord
deriving DecidableEq, Repr

/-- The value `max_dt_state_history` of `RonaTweeter.send_tweet`: the tweet
history is
filtered to `location == state` (note: the series is not part of the filter)
and the maximum logged `data_date` is taken. -/
def histMaxFor (history : List LogRecord) (state : String) : Option Date :=
  maxDate ((history.filter (fun r => r.location == state)).map (fun r => r.dataDate))

/-- The method `RonaTweeter.send_tweet(tweet_type)`: only when the maximum
tidy date is
strictly newer than the per-location history maximum compose the plot and
status, log them and post.  `Except.error` models a propagating Python
exception (empty data on the chosen branch, or an unknown `tweet_type` leaving
`plot_filename` unbound). -/
def send_tweet (history : List LogRecord) (state series : String)
    (tidy : List TidyRow) (tweetType : String) : Except Unit SendResult :=
  if newerThanLog (maxDate (tidy.map (fun r => r.date))) (histMaxFor history state) then
    if tweetType == "new_cases" then
      match new_case_curve tidy state series with
      | some (d, _, st) =>
          .ok ⟨true, some ⟨none, none, d, state, some (newCaseFilename state series d), some st⟩⟩
      | none => .error ()
    else if tweetType == "time_series" then
      match plot_timeseries tidy state series with
      | some (d, _, st) =>
          .ok ⟨true, some ⟨some st, some (tsFilename state series d), d, state, none, none⟩⟩
      | none => .error ()
    else .error ()
  else .ok ⟨false, none⟩

/-- The `(series, location)` iteration order of `main`: for each series of
`DF_DICT`, each location of `STATES`. -/
def dmvPairs : List (String × String) :=
  [("Confirmed", "DC"), ("Confirmed", "MD"), ("Confirmed", "VA"), ("Confirmed", "All"),
   ("Deaths", "DC"), ("Deaths", "MD"), ("Deaths", "VA"), ("Deaths", "All")]

/-- In `main`, the All location gets a time_series tweet and the individual
states get new_cases tweets. -/
def tweetTypeFor (loc : String) : String :=
  if loc == "All" then "time_series" else "new_cases"

/-- Outcome of one `main` run: the concatenated per-instance `log_df` entries,
the `(series, location)` pairs that posted, and the content of
`log/DMV_COVID19_full_tweet_log.csv` after the run. -/
structure RunOut where
  entries : List LogRecord
  postedPairs : List (String × String)
  newLog : List LogRecord
deriving DecidableEq, Repr

/-- The location loop of `main` in src/DMV_COVID19/tweet_updates.py: iterate
over all
(series, location) pairs against the one tweet history read at import time,
collect the per-instance logs, and rewrite the full log as
`pd.concat([TWEET_HISTORY_DF, tweets_sent_df])` only when something was
logged.  An exception in any iteration propagates and aborts the run. -/
def dmvCollect (frames : String → WideFrame) (history : List LogRecord) :
    Except Unit (List LogRecord × List (String × String)) :=
  dmvPairs.foldlM
    (fun (acc : List LogRecord × List (String × String)) (p : String × String) =>
      (match tidy_timeseries (frames p.1) p.2 with
      | none => .error ()
      | some tidy =>
          (send_tweet history p.2 p.1 tidy (tweetTypeFor p.2)).map
            (fun res =>
              (acc.1 ++ res.logEntry.toList,
               acc.2 ++ if res.posted then [p] else [])) :
        Except Unit (List LogRecord × List (String × String))))
    ([], [])

/-- The final `to_csv` block of `main`: the full log is rewritten as
`pd.concat([TWEET_HISTORY_DF, tweets_sent_df])` only when something was
logged. -/
def dmvMain (frames : String → WideFrame) (history : List LogRecord) :
    Except Unit RunOut :=
  (dmvCollect frames history).map
    (fun acc =>
      ⟨acc.1, acc.2, if acc.1.isEmpty then history else history ++ acc.1⟩)

/-- The on-disk log after an invocation of the script: the fetch/parse of the
two USAFacts CSVs happens at import time, before the log is ever touched, so a
failed or malformed response (`Except.error`) leaves the log file exactly as it
was, as does any exception inside `main`. -/
def dmvRunDisk (fetch : Except Unit (String → WideFrame))
    (disk : List LogRecord) : List LogRecord :=
  match fetch with
  | .error _ => disk
  | .ok frames =>
      match dmvMain frames disk with
      | .error _ => disk
      | .ok out => out.newLog

/-! ## The map/GIF tweeting script (src/DMV_COVID19/tweet_maps.py) -/

/-- One county row of the merged GeoDataFrame built by `setup_data`: county
name, state, and the cells of the date columns in order (the geometry column
plays no role in text composition). -/
structure GeoRow where
  countyName : String
  state : String
  values : List Int
deriving DecidableEq, Repr

/-- The merged GeoDataFrame: the date column labels (strings such as
`3/12/20`, kept verbatim because the script uses them verbatim in titles and
statuses) and the county rows.  The date columns come last in the real frame,
so slicing the column list from the end picks date columns; the model carries
the date columns only. -/
structure GeoFrame where
  dateCols : List String
  rows : List GeoRow
deriving DecidableEq, Repr

/-- Observable side effects of the two map functions, in order: figure saves,
the GIF encode, the media upload and the tweet itself. -/
inductive MapAction where
  | savefig (path : String)
  | mimsave (path : String)
  | uploadMedia (path : String)
  | updateStatus (status : String)
deriving DecidableEq, Repr

/-- Tweet phrasing per series; `none` models the `NameError` on an unknown
series name (the variable `phrasing` is left unbound). -/
def seriesPhrasing (series : String) : Option String :=
  if series == "Confirmed" then some "confirmed COVID-19 cases"
  else if series == "Deaths" then some "COVID-19 deaths"
  else none

/-- Python list slicing `l[i:]`, including the negative-index case. -/
def pyDropFrom {α : Type} (l : List α) (i : Int) : List α :=
  l.drop (max 0 (if 0 ≤ i then i else (l.length : Int) + i)).toNat

/-- Slash-to-dash replacement applied to column labels in filenames. -/
def slashToDash (s : String) : String := s.replace "/" "-"

/-- The function `tweet_gif(gdf, series_name, ndays=5)`: save one choropleth
frame per day
of the last `ndays` columns, encode them as a GIF — and only compose the
status: the `upload_media`/`update_status` lines are commented out in the
source (a noted Twitter API issue with GIFs), so no posting action is emitted.
Returns the emitted actions and the composed status; `none` models the
exception on an empty column slice, an empty frame (`np.max` of nothing)
or an unknown series. -/
def tweet_gif (g : GeoFrame) (series : String) (todayISO : String)
    (ndays : Nat) : Option (List MapAction × String) :=
  let vars := pyDropFrom g.dateCols ((g.dateCols.length : Int) - (ndays : Int))
  match vars.getLast? with
  | none => none
  | some lastDay =>
      if g.rows.isEmpty then none
      else
        match seriesPhrasing series with
        | none => none
        | some phr =>
            let saves := vars.map (fun v =>
              MapAction.savefig ("plots/dmv_" ++ series ++ "_" ++ slashToDash v ++ "_map.png"))
            let gifPath := "plots/dmv_" ++ series ++ "_" ++ todayISO ++ ".gif"
            let status := toString ndays ++ " day trend of " ++ phr ++
              " in the DMV by county, as of " ++ lastDay ++
              ". Source: @usafacts #MadewithUSAFacts."
            some (saves ++ [MapAction.mimsave gifPath], status)

/-- The function `tweet_image(gdf, series_name, top_n=5)`: save the
choropleth of the last
column, compose the status listing the `top_n` counties by `nlargest` (largest
first, ties kept in frame order), then upload the image and post the status.
`none` models the exception on an empty frame or an unknown series. -/
def tweet_image (g : GeoFrame) (series : String) (topN : Nat) :
    Option (List MapAction × String) :=
  match g.dateCols.getLast? with
  | none => none
  | some lastDay =>
      if g.rows.isEmpty then none
      else
        match seriesPhrasing series with
        | none => none
        | some phr =>
            let j := g.dateCols.length - 1
            let imgPath := "plots/dmv_" ++ series ++ "_" ++ slashToDash lastDay ++ "_map.png"
            let sorted := g.rows.mergeSort
              (fun a b => decide ((b.values.getD j 0) ≤ (a.values.getD j 0)))
            let top := (sorted.take topN).foldl
              (fun acc r =>
                acc ++ r.countyName ++ ", " ++ r.state ++ ": " ++
                  toString (r.values.getD j 0) ++ "\n")
              ""
            let status := "Number of " ++ phr ++ " in the DMV by county, as of " ++
              lastDay ++ ".\n\nTop " ++ toString topN ++ ":\n" ++ top ++
              "\n\nSource: @usafacts #MadewithUSAFacts."
            some ([MapAction.savefig imgPath, MapAction.uploadMedia imgPath,
                   MapAction.updateStatus status], status)

/-! ## The SunsetWx bot (src/SunsetWxBot/tweet_updates.py) -/

/-- One row of `log/SunsetWx_full_tweet_log.csv`: city, type
(sunrise/sunset), last run date and the per-category run counters with the
running average score.  Counters are naturals (the CSV holds counts); scores
and averages are exact rationals. -/
structure SunRow where
  city : String
  rtype : String
  last_run_dt : String
  n_poor : Nat
  n_fair : Nat
  n_good : Nat
  n_great : Nat
  n_runs : Nat
  avg_quality_score : Rat
deriving DecidableEq, Repr

/-- The SunsetWx log DataFrame.  `strayColumns` records the fresh columns the
buggy bare-bracket assignment to the tuple key (log_index, n_great) creates:
that statement adds a new column keyed by the tuple and sets it to the scalar
`v`; it does not touch the `n_great` cell. -/
structure SunLog where
  rows : List SunRow
  strayColumns : List (Nat × Int)
deriving DecidableEq, Repr

/-- The score-category branch of `update_log_record`: which counter cell the
`.loc` assignments bump.  In the `score >= 75` branch no cell is written at
all — the source line lacks `.loc`, so it creates a stray column instead (see
`strayWriteFor`). -/
def bumpCategory (r : SunRow) (score : Rat) : SunRow :=
  if score < 25 then { r with n_poor := r.n_poor + 1 }
  else if score < 50 then { r with n_fair := r.n_fair + 1 }
  else if score < 75 then { r with n_good := r.n_good + 1 }
  else r

/-- The stray column the bare-bracket assignment to the tuple key
(log_index, n_great) creates in the `score >= 75` branch. -/
def strayWriteFor (i : Nat) (r : SunRow) (score : Rat) : List (Nat × Int) :=
  if score < 25 then []
  else if score < 50 then []
  else if score < 75 then []
  else [(i, (r.n_great : Int) + 1)]

/-- The matched row after one `update_log_record` call: `last_run_dt`
stamped, category counter bumped, the running average recomputed from the old
average and the old `n_runs`, and `n_runs` bumped last (every read in the
source is of a column not yet written during the call). -/
def updatedSunRow (r : SunRow) (current_date : String) (score : Rat) : SunRow :=
  { bumpCategory r score with
      last_run_dt := current_date
      avg_quality_score :=
        (r.avg_quality_score * (r.n_runs : Rat) + score) / ((r.n_runs : Rat) + 1)
      n_runs := r.n_runs + 1 }

/-- The method `SunTweeter.update_log_record(current_date, score)`: find the
first row
matching `(city, type)` (`none` models the `IndexError` when there is none)
and replace it by `updatedSunRow`, appending the stray column of the buggy
branch. -/
def update_log_record (log : SunLog) (city rtype : String)
    (current_date : String) (score : Rat) : Option SunLog :=
  match log.rows.findIdx? (fun r => r.city == city && r.rtype == rtype) with
  | none => none
  | some i =>
      match log.rows[i]? with
      | none => none
      | some r =>
          some ⟨log.rows.set i (updatedSunRow r current_date score),
                log.strayColumns ++ strayWriteFor i r score⟩

/-- What one SunsetWx API response contributes: the quality label and the
quality percentage. -/
structure SunFetch where
  quality : String
  score : Rat
deriving DecidableEq, Repr

/-- The method `SunTweeter.send_tweet`: post exactly when the quality label
is `Great`,
then update the log record regardless.  The status text is composed from the
localized event time and is presentation only; the model keeps the posting
flag.  `none` models the `IndexError` escaping `update_log_record`. -/
def sunSend (log : SunLog) (city rtype today : String) (f : SunFetch) :
    Option (SunLog × Bool) :=
  let posted := f.quality == "Great"
  (update_log_record log city rtype today f.score).map (fun l => (l, posted))

/-- The location loop of `main` in src/SunsetWxBot/tweet_updates.py: one
`SunTweeter` per location, constructed with the log of the previous iteration.
The API call happens in the constructor, so a failed fetch (`Except.error`)
aborts the loop there and then. -/
def sunLoop (today rtype : String) :
    List (String × Except Unit SunFetch) → SunLog → Except Unit SunLog
  | [], log => .ok log
  | (_, .error e) :: _, _ => .error e
  | (city, .ok f) :: rest, log =>
      match sunSend log city rtype today f with
      | none => .error ()
      | some (l, _) => sunLoop today rtype rest l

/-- The on-disk SunsetWx log after an invocation of the script: the single
`to_csv` sits after the whole loop, so any exception inside the loop leaves
the file exactly as it was. -/
def sunRunDisk (today rtype : String)
    (items : List (String × Except Unit SunFetch)) (disk : SunLog) : SunLog :=
  match sunLoop today rtype items disk with
  | .error _ => disk
  | .ok l => l

/-- A sequence of daily bot runs for one `(city, type)` pair: each run calls
`update_log_record` once with that day of `datetime.today()` and the score the
API returned. -/
def foldScores (city rtype : String) : List (String × Rat) → SunLog → Option SunLog
  | [], log => some log
  | (dt, s) :: rest, log =>
      match update_log_record log city rtype dt s with
      | none => none
      | some l2 => foldScores city rtype rest l2

/-- Whether a map-script action publishes a tweet. -/
def isPost : MapAction → Bool
  | .updateStatus _ => true
  | _ => false

/-! ## Concrete fixtures used by witnesses and counterexamples -/

/-- Confirmed-series frame whose newest day shows a downward data correction
for DC: the cumulative count drops from 9 to 7, so the newest day-over-day
increase is negative. -/
def frameC1Confirmed : WideFrame :=
  ⟨[⟨2020, 3, 10⟩, ⟨2020, 3, 11⟩, ⟨2020, 3, 12⟩],
   [⟨11001, "District of Columbia", "DC", 11, [5, 9, 7]⟩,
    ⟨24001, "Allegany County", "MD", 24, [0, 0, 0]⟩,
    ⟨51001, "Accomack County", "VA", 51, [0, 0, 0]⟩]⟩

/-- Deaths-series frame that is still on the old data date, so the Deaths
iterations never post. -/
def frameC1Deaths : WideFrame :=
  ⟨[⟨2020, 3, 10⟩],
   [⟨11001, "District of Columbia", "DC", 11, [1]⟩,
    ⟨24001, "Allegany County", "MD", 24, [0]⟩,
    ⟨51001, "Accomack County", "VA", 51, [0]⟩]⟩

/-- The per-series fetched frames of one script invocation. -/
def framesC1 : String → WideFrame :=
  fun s => if s == "Confirmed" then frameC1Confirmed else frameC1Deaths

/-- Tweet history holding one earlier DC record for data date 2020-03-10. -/
def histC1 : List LogRecord := [⟨none, none, ⟨2020, 3, 10⟩, "DC", none, none⟩]

/-- A small DC frame with strictly increasing counts 1, 2, 3. -/
def frameC2 : WideFrame :=
  ⟨[⟨2020, 3, 10⟩, ⟨2020, 3, 11⟩, ⟨2020, 3, 12⟩],
   [⟨11001, "District of Columbia", "DC", 11, [1, 2, 3]⟩]⟩

/-- The value of `tidy_timeseries frameC2 "DC"`, written out. -/
def tidyC2 : List TidyRow :=
  [⟨"DC", ⟨2020, 3, 10⟩, 1, none, none⟩,
   ⟨"DC", ⟨2020, 3, 11⟩, 2, some 1, some 1⟩,
   ⟨"DC", ⟨2020, 3, 12⟩, 3, some 2, some 1⟩]

/-- Tweet history for DC holding a Confirmed-series record for data date
2020-03-11 and a Deaths-series record for data date 2020-03-12 (the log has no
series column; the series of each record is visible only in its status
text). -/
def histC2 : List LogRecord :=
  [⟨none, none, ⟨2020, 3, 11⟩, "DC",
    some "plots/new_curve_D.C_Confirmed_2020-03-11.png",
    some "There were 1 new reported cases of COVID-19 in D.C on Mar. 11, 2020.\nSource: @usafacts #MadewithUSAFacts."⟩,
   ⟨none, none, ⟨2020, 3, 12⟩, "DC",
    some "plots/new_curve_D.C_Deaths_2020-03-12.png",
    some "There were 2 new reported deaths of COVID-19 in D.C on Mar. 12, 2020.\nSource: @usafacts #MadewithUSAFacts."⟩]

/-- A SunsetWx log with one fresh `(DC, sunset)` record: no runs yet, all
counters zero. -/
def sunLog0 : SunLog := ⟨[⟨"DC", "sunset", "2019-12-31", 0, 0, 0, 0, 0, 0⟩], []⟩

/-- The value of `tidy_timeseries frameC1Confirmed "DC"`, written out. -/
def tidyC4 : List TidyRow :=
  [⟨"DC", ⟨2020, 3, 10⟩, 5, none, none⟩,
   ⟨"DC", ⟨2020, 3, 11⟩, 9, some 5, some 4⟩,
   ⟨"DC", ⟨2020, 3, 12⟩, 7, some 9, some (-2)⟩]

/-- Two consecutive daily scores for the `(DC, sunset)` record. -/
def scoresC9 : List (String × Rat) := [("2020-01-02", 10), ("2020-01-03", 20)]

/-- A small merged GeoDataFrame with two counties and three date columns. -/
def geoC7 : GeoFrame :=
  ⟨["3/10/20", "3/11/20", "3/12/20"],
   [⟨"District of Columbia", "DC", [1, 2, 3]⟩,
    ⟨"Montgomery County", "MD", [4, 5, 6]⟩]⟩

/-! ## Helper lemmas -/

theorem maxDate_mem {l : List Date} {d : Date} (h : maxDate l = some d) : d ∈ l := by
  induction l with
  | nil => simp [maxDate] at h
  | cons x rest ih =>
      rw [maxDate] at h
      split at h
      · injection h with h
        exact h ▸ List.mem_cons_self x rest
      · next m heq =>
          split at h
          · injection h with h
            exact h ▸ List.mem_cons_self x rest
          · injection h with h
            exact List.mem_cons_of_mem x (ih (h ▸ heq))

theorem maxDate_ne_none {l : List Date} (h : l ≠ []) : maxDate l ≠ none := by
  cases l with
  | nil => exact absurd rfl h
  | cons x rest =>
      rw [maxDate]
      cases maxDate rest with
      | none => simp
      | some m => by_cases hlt : m.lt x = true <;> simp [hlt]

theorem sunLoop_error_of_mem (today rtype : String) :
    ∀ (items : List (String × Except Unit SunFetch)) (log : SunLog),
      (∃ p ∈ items, p.2 = Except.error ()) →
      sunLoop today rtype items log = .error () := by
  intro items
  induction items with
  | nil => intro log h; simp at h
  | cons hd rest ih =>
      intro log h
      obtain ⟨p, hp, he⟩ := h
      obtain ⟨city, fetch⟩ := hd
      rcases List.mem_cons.1 hp with hh | ht
      · subst hh
        simp only at he
        subst he
        simp [sunLoop]
      · cases fetch with
        | error e => cases e; simp [sunLoop]
        | ok f =>
            simp only [sunLoop]
            cases sunSend log city rtype today f with
            | none => rfl
            | some pr =>
                obtain ⟨l, b⟩ := pr
                exact ih l ⟨p, ht, he⟩

/-! ## Claim theorems -/

/-- C1.  The code violates the at-most-one-post-per-newest-date invariant:
when the newest day of the Confirmed series carries a negative day-over-day
correction, `new_case_curve` logs the newest date of the non-negative subset
(2020-03-11) instead of the newest available date (2020-03-12), so a second
run over the log written by the first run passes the `send_tweet` guard again
and sends the identical post a second time for the same `(DC, Confirmed)` pair
and the same newest-available data date. -/
theorem dmv_duplicate_post_two_runs :
    (dmvMain framesC1 histC1).map (fun o => o.postedPairs) =
      .ok [("Confirmed", "DC")] ∧
    ((dmvMain framesC1 histC1).bind (fun o => dmvMain framesC1 o.newLog)).map
        (fun o => o.postedPairs) = .ok [("Confirmed", "DC")] ∧
    (tidy_timeseries (framesC1 "Confirmed") "DC").map
        (fun tidy => maxDate (tidy.map (fun r => r.date))) =
      some (some ⟨2020, 3, 12⟩) :=
  ⟨rfl, rfl, rfl⟩

/-- C3.  A failed or malformed upstream fetch leaves the on-disk log exactly
as it was: the DMV bot fetches at import time, before the log is read or
written, and the SunsetWx bot writes its log once after the whole location
loop, so a fetch error in any iteration aborts the script before the single
`to_csv`.  No retry exists in either script. -/
theorem fetch_error_leaves_log_untouched :
    (∀ disk : List LogRecord, dmvRunDisk (.error ()) disk = disk) ∧
    (∀ (today rtype : String) (items : List (String × Except Unit SunFetch))
        (disk : SunLog),
      (∃ p ∈ items, p.2 = Except.error ()) →
      sunRunDisk today rtype items disk = disk) := by
  constructor
  · intro disk; rfl
  · intro today rtype items disk h
    unfold sunRunDisk
    rw [sunLoop_error_of_mem today rtype items disk h]

/-- Witness for C3 at a concrete failing fetch. -/
theorem fetch_error_leaves_log_untouched_witness :
    dmvRunDisk (.error ()) histC1 = histC1 ∧
    sunRunDisk "2020-01-02" "sunset" [("DC", Except.error ())] sunLog0 = sunLog0 :=
  ⟨fetch_error_leaves_log_untouched.1 histC1,
   fetch_error_leaves_log_untouched.2 "2020-01-02" "sunset"
     [("DC", Except.error ())] sunLog0
     ⟨("DC", Except.error ()), List.mem_cons_self _ _, rfl⟩⟩

/-- C5.  Whatever `new_case_curve` reports is a non-negative day-over-day
increase: the reported count is the `new` value of a tidy row (value minus the
previous value), it is non-negative, and the status text is composed from
exactly that count and the date it belongs to. -/
theorem new_case_curve_reports_nonneg :
    ∀ (tidy : List TidyRow) (state series : String) (d : Date) (n : Int)
      (st : String),
      new_case_curve tidy state series = some (d, n, st) →
      0 ≤ n ∧ (∃ r ∈ tidy, r.date = d ∧ r.new = some n) ∧
      st = "There were " ++ toString n ++ " " ++ newCaseStatusPhrase series ++
        " COVID-19 in " ++ locName state ++ " on " ++ dateTitle d ++
        ".\nSource: @usafacts #MadewithUSAFacts." := by
  intro tidy state series d n st h
  unfold new_case_curve at h
  split at h
  · exact absurd h (by simp)
  · next dmax hm =>
      split at h
      · next r heq =>
          simp only [Option.some.injEq, Prod.mk.injEq] at h
          obtain ⟨hd, hn, hst⟩ := h
          have hr : r ∈ (tidy.filter nonNegNew).filter (fun r => r.date == dmax) := by
            rw [heq]; exact List.mem_cons_self r []
          have hr1 : r ∈ tidy.filter nonNegNew := List.mem_of_mem_filter hr
          have hrd : r.date = dmax := by
            have := List.of_mem_filter hr
            simpa using this
          have hrt : r ∈ tidy := List.mem_of_mem_filter hr1
          have hrn : nonNegNew r = true := List.of_mem_filter hr1
          unfold nonNegNew at hrn
          cases hv : r.new with
          | none => rw [hv] at hrn; simp at hrn
          | some v =>
              rw [hv] at hrn
              have hv0 : (0 : Int) ≤ v := by simpa using hrn
              have hnv : n = v := by rw [← hn, hv]; rfl
              refine ⟨hnv ▸ hv0, ⟨r, hrt, by rw [hrd, hd], by rw [hv, hnv]⟩, ?_⟩
              rw [← hst, hn, hd]
      · exact absurd h (by simp)

/-- Witness for C5 at the concrete tidy frame `tidyC2`. -/
theorem new_case_curve_reports_nonneg_witness :
    0 ≤ (1 : Int) ∧ (∃ r ∈ tidyC2, r.date = ⟨2020, 3, 12⟩ ∧ r.new = some 1) ∧
    "There were 1 new reported cases of COVID-19 in D.C on Mar. 12, 2020.\nSource: @usafacts #MadewithUSAFacts." =
      "There were " ++ toString (1 : Int) ++ " " ++ newCaseStatusPhrase "Confirmed" ++
        " COVID-19 in " ++ locName "DC" ++ " on " ++ dateTitle ⟨2020, 3, 12⟩ ++
        ".\nSource: @usafacts #MadewithUSAFacts." :=
  new_case_curve_reports_nonneg tidyC2 "DC" "Confirmed" ⟨2020, 3, 12⟩ 1 _ rfl

/-- C8.  The `score >= 75` branch of `update_log_record` contradicts the
counter invariant: the bare-bracket assignment creates a stray column instead
of incrementing `n_great`, while `n_runs` is still incremented, so after one
run with score 80 on a fresh record the counter sum is 0 but `n_runs` is 1. -/
theorem update_log_record_ngreat_bug :
    (update_log_record sunLog0 "DC" "sunset" "2020-01-02" 80).map
        (fun l => (l.rows.map
          (fun r => (r.last_run_dt, r.n_poor, r.n_fair, r.n_good, r.n_great, r.n_runs)),
          l.strayColumns)) =
      some ([("2020-01-02", 0, 0, 0, 0, 1)], [(0, 1)]) ∧
    (update_log_record sunLog0 "DC" "sunset" "2020-01-02" 80).map
        (fun l => l.rows.map
          (fun r => (r.n_poor + r.n_fair + r.n_good + r.n_great, r.n_runs))) =
      some [(0, 1)] := by
  constructor
  · rfl
  · rfl

/-- C10.  A state with no record at all in the tweet history never posts: the
per-location maximum is the missing value NaT, every pandas comparison
against it is `False`, so the guard fails, nothing is composed and no log
entry is created. -/
theorem send_tweet_no_history_no_post :
    ∀ (history : List LogRecord) (state series : String) (tidy : List TidyRow)
      (ttype : String),
      history.filter (fun r => r.location == state) = [] →
      send_tweet history state series tidy ttype = .ok ⟨false, none⟩ := by
  intro history state series tidy ttype h
  unfold send_tweet histMaxFor
  rw [h]
  have : newerThanLog (maxDate (tidy.map (fun r => r.date)))
      (maxDate (([] : List LogRecord).map (fun r => r.dataDate))) = false := by
    unfold newerThanLog
    cases maxDate (tidy.map (fun r => r.date)) <;> rfl
  rw [this]
  rfl

/-- Witness for C10: the history `histC1` has no record for MD. -/
theorem send_tweet_no_history_no_post_witness :
    send_tweet histC1 "MD" "Confirmed" tidyC2 "new_cases" = .ok ⟨false, none⟩ :=
  send_tweet_no_history_no_post histC1 "MD" "Confirmed" tidyC2 "new_cases" rfl

/-- C2, counterexample.  The stored date `send_tweet` compares against is not
keyed by `(location, series_type)`: in `histC2` the only Confirmed-series
record for DC carries data date 2020-03-11 (its status text identifies the
series; the log itself has no series column), the freshly fetched Confirmed
series reaches 2020-03-12, strictly newer — yet `send_tweet` posts nothing,
because the history filter keeps every DC record regardless of series and the
Deaths record already carries 2020-03-12. -/
theorem send_tweet_ignores_series_key :
    tidy_timeseries frameC2 "DC" = some tidyC2 ∧
    maxDate (tidyC2.map (fun r => r.date)) = some ⟨2020, 3, 12⟩ ∧
    Date.lt ⟨2020, 3, 11⟩ ⟨2020, 3, 12⟩ = true ∧
    send_tweet histC2 "DC" "Confirmed" tidyC2 "new_cases" = .ok ⟨false, none⟩ :=
  ⟨rfl, rfl, rfl, rfl⟩

/-- C2, amended.  `send_tweet` posts, and creates exactly one log entry, if
and only if the newest tidy date is strictly greater than the maximum stored
`data_date` for that location across all series (the log has no series
column).  Hypotheses: the tidy dates are distinct and some row has a valid
non-negative increase, so the `new_cases` branch cannot raise. -/
theorem send_tweet_posts_iff_newer_than_location_max :
    ∀ (history : List LogRecord) (state series : String) (tidy : List TidyRow)
      (ttype : String),
      (ttype = "new_cases" ∨ ttype = "time_series") →
      (tidy.map (fun r => r.date)).Nodup →
      (∃ r ∈ tidy, nonNegNew r = true) →
      ∃ res, send_tweet history state series tidy ttype = .ok res ∧
        res.posted = newerThanLog (maxDate (tidy.map (fun r => r.date)))
          (histMaxFor history state) ∧
        res.logEntry.isSome = res.posted := by
  intro history state series tidy ttype hty hN hE
  cases hg : newerThanLog (maxDate (tidy.map (fun r => r.date)))
      (histMaxFor history state) with
  | false => exact ⟨⟨false, none⟩, by simp [send_tweet, hg], rfl, rfl⟩
  | true =>
      have hsome : ∃ mt, maxDate (tidy.map (fun r => r.date)) = some mt := by
        cases hmt : maxDate (tidy.map (fun r => r.date)) with
        | none =>
            rw [hmt] at hg
            unfold newerThanLog at hg
            cases histMaxFor history state <;> simp at hg
        | some mt => exact ⟨mt, rfl⟩
      rcases hty with hty | hty
      · subst hty
        have hdata : tidy.filter nonNegNew ≠ [] := by
          obtain ⟨r, hr, hrn⟩ := hE
          intro hnil
          have hmem : r ∈ tidy.filter nonNegNew := List.mem_filter.mpr ⟨hr, hrn⟩
          rw [hnil] at hmem
          exact absurd hmem (List.not_mem_nil r)
        have hmapne : (tidy.filter nonNegNew).map (fun r => r.date) ≠ [] := by
          simpa using hdata
        obtain ⟨dmax, hdm⟩ : ∃ dmax,
            maxDate ((tidy.filter nonNegNew).map (fun r => r.date)) = some dmax := by
          cases hx : maxDate ((tidy.filter nonNegNew).map (fun r => r.date)) with
          | none => exact absurd hx (maxDate_ne_none hmapne)
          | some dmax => exact ⟨dmax, rfl⟩
        have hdmem : dmax ∈ (tidy.filter nonNegNew).map (fun r => r.date) :=
          maxDate_mem hdm
        have hNd : ((tidy.filter nonNegNew).map (fun r => r.date)).Nodup :=
          hN.sublist (List.Sublist.map (fun r => r.date)
            (List.filter_sublist (p := nonNegNew) tidy))
        have hcount : ((tidy.filter nonNegNew).filter
            (fun r => r.date == dmax)).length = 1 := by
          have h1 : ((tidy.filter nonNegNew).filter
              (fun r => r.date == dmax)).length
              = List.countP (fun r => r.date == dmax) (tidy.filter nonNegNew) :=
            (List.countP_eq_length_filter _ _).symm
          have h2 : List.countP (fun r => r.date == dmax) (tidy.filter nonNegNew)
              = List.countP (fun x => x == dmax)
                  ((tidy.filter nonNegNew).map (fun r => r.date)) :=
            (List.countP_map (fun x => x == dmax) (fun r : TidyRow => r.date)
              (tidy.filter nonNegNew)).symm
          have h3 : List.countP (fun x => x == dmax)
              ((tidy.filter nonNegNew).map (fun r => r.date))
              = List.count dmax ((tidy.filter nonNegNew).map (fun r => r.date)) :=
            (List.count_eq_countP _ _).symm
          rw [h1, h2, h3]
          exact List.count_eq_one_of_mem hNd hdmem
        obtain ⟨rr, hrr⟩ := List.length_eq_one.mp hcount
        obtain ⟨d0, n0, st0, hncc⟩ : ∃ d0 n0 st0,
            new_case_curve tidy state series = some (d0, n0, st0) := by
          refine ⟨dmax, rr.new.getD 0,
            "There were " ++ toString (rr.new.getD 0) ++ " " ++
              newCaseStatusPhrase series ++ " COVID-19 in " ++ locName state ++
              " on " ++ dateTitle dmax ++
              ".\nSource: @usafacts #MadewithUSAFacts.", ?_⟩
          simp only [new_case_curve, hdm, hrr]
        refine ⟨⟨true, some ⟨none, none, d0, state,
          some (newCaseFilename state series d0), some st0⟩⟩, ?_, rfl, rfl⟩
        simp [send_tweet, hg, hncc]
      · subst hty
        obtain ⟨mt, hmt⟩ := hsome
        obtain ⟨n0, st0, hpt⟩ : ∃ n0 st0,
            plot_timeseries tidy state series = some (mt, n0, st0) := by
          refine ⟨((currentRows tidy mt).map (fun r => r.value)).sum,
            "There have been " ++
              toString ((currentRows tidy mt).map (fun r => r.value)).sum ++
              " " ++ seriesStatus series ++ " COVID-19 in " ++ locName state ++
              ", as of " ++ dateTitle mt ++ ".\n\n" ++
              (currentRows tidy mt).foldl
                (fun acc r => acc ++ r.state ++ ": " ++ toString r.value ++ "\n") "" ++
              "\nSource: @usafacts #MadewithUSAFacts.", ?_⟩
          simp only [plot_timeseries, hmt]
        refine ⟨⟨true, some ⟨some st0, some (tsFilename state series mt), mt,
          state, none, none⟩⟩, ?_, rfl, rfl⟩
        simp [send_tweet, hg, hpt]

theorem sunSend_rows_length {log l : SunLog} {b : Bool} {city rtype today : String}
    {f : SunFetch} (h : sunSend log city rtype today f = some (l, b)) :
    l.rows.length = log.rows.length := by
  unfold sunSend at h
  cases hu : update_log_record log city rtype today f.score with
  | none => rw [hu] at h; exact absurd h (by simp)
  | some l2 =>
      rw [hu] at h
      simp only [Option.map_some', Option.some.injEq, Prod.mk.injEq] at h
      obtain ⟨hl, -⟩ := h
      subst hl
      unfold update_log_record at hu
      split at hu
      · exact absurd hu (by simp)
      · split at hu
        · exact absurd hu (by simp)
        · simp only [Option.some.injEq] at hu
          subst hu
          exact List.length_set _ _ _

/-- C6, amended.  The DMV bot appends: when a run completes, the new full log
is exactly the old log followed by the records of the run, so every record
present before is still present, unchanged and in place.  The SunsetWx bot
does not append: its run updates the matched rows in place (the row count
never changes; see the counterexample for a record being rewritten). -/
theorem log_append_semantics :
    (∀ (frames : String → WideFrame) (history : List LogRecord) (out : RunOut),
      dmvMain frames history = .ok out → out.newLog = history ++ out.entries) ∧
    (∀ (today rtype : String) (items : List (String × Except Unit SunFetch))
      (log res : SunLog),
      sunLoop today rtype items log = .ok res →
      res.rows.length = log.rows.length) := by
  constructor
  · intro frames history out h
    unfold dmvMain at h
    cases hc : dmvCollect frames history with
    | error e => rw [hc] at h; exact absurd h (by simp [Except.map])
    | ok acc =>
        rw [hc] at h
        simp only [Except.map, Except.ok.injEq] at h
        subst h
        simp only
        by_cases he : acc.1.isEmpty
        · rw [if_pos he]
          rw [List.isEmpty_iff.mp he]
          simp
        · rw [if_neg he]
  · intro today rtype items
    induction items with
    | nil =>
        intro log res h
        simp only [sunLoop, Except.ok.injEq] at h
        rw [h]
    | cons hd rest ih =>
        intro log res h
        obtain ⟨city, fetch⟩ := hd
        cases fetch with
        | error e => simp [sunLoop] at h
        | ok f =>
            simp only [sunLoop] at h
            cases hs : sunSend log city rtype today f with
            | none => rw [hs] at h; exact absurd h (by simp)
            | some pr =>
                rw [hs] at h
                obtain ⟨l, b⟩ := pr
                calc res.rows.length = l.rows.length := ih l res h
                  _ = log.rows.length := sunSend_rows_length hs

/-- Witness for the amended C6 at a concrete run: an empty history with empty
frames yields an empty run, and the nil SunsetWx loop keeps the row count. -/
theorem log_append_semantics_witness :
    (⟨[], [], []⟩ : RunOut).newLog = ([] : List LogRecord) ++ (⟨[], [], []⟩ : RunOut).entries ∧
    sunLog0.rows.length = sunLog0.rows.length :=
  ⟨log_append_semantics.1 framesC1 [] ⟨[], [], []⟩ rfl,
   log_append_semantics.2 "2020-01-02" "sunset" [] sunLog0 sunLog0 rfl⟩

/-- C6, counterexample.  A SunsetWx run rewrites the matched log record in
place: after one run the single `(DC, sunset)` record has a new
`last_run_dt`, `n_poor` and `n_runs`, and the record that was in the log
before the run is no longer present anywhere in the written log, refuting
that every prior record survives unchanged with new records appended after
it. -/
theorem sun_run_rewrites_records :
    (sunRunDisk "2020-01-02" "sunset" [("DC", Except.ok ⟨"Poor", 10⟩)] sunLog0).rows.map
        (fun r => (r.last_run_dt, r.n_poor, r.n_runs)) = [("2020-01-02", 1, 1)] ∧
    sunLog0.rows.map (fun r => (r.last_run_dt, r.n_poor, r.n_runs)) =
      [("2019-12-31", 0, 0)] ∧
    ("2019-12-31", 0, 0) ∉
      (sunRunDisk "2020-01-02" "sunset" [("DC", Except.ok ⟨"Poor", 10⟩)] sunLog0).rows.map
        (fun r => (r.last_run_dt, r.n_poor, r.n_runs)) := by
  refine ⟨rfl, rfl, ?_⟩
  intro hmem
  rw [show (sunRunDisk "2020-01-02" "sunset" [("DC", Except.ok ⟨"Poor", 10⟩)] sunLog0).rows.map
      (fun r => (r.last_run_dt, r.n_poor, r.n_runs)) = [("2020-01-02", 1, 1)] from rfl] at hmem
  simp at hmem

theorem pyDropFrom_tail_ne_nil {α : Type} (l : List α) (ndays : Nat)
    (hl : l ≠ []) (hnd : ndays ≠ 0) :
    pyDropFrom l ((l.length : Int) - (ndays : Int)) ≠ [] := by
  unfold pyDropFrom
  intro h
  rw [List.drop_eq_nil_iff] at h
  have hlen : 0 < l.length := List.length_pos.mpr hl
  rcases le_or_lt 0 ((l.length : Int) - (ndays : Int)) with hc | hc
  · rw [if_pos hc, max_eq_right hc] at h
    omega
  · rw [if_neg (not_le.mpr hc)] at h
    rcases le_or_lt (0 : Int) ((l.length : Int) + ((l.length : Int) - (ndays : Int))) with hc2 | hc2
    · rw [max_eq_right hc2] at h
      omega
    · rw [max_eq_left (le_of_lt hc2)] at h
      omega

/-- C7, counterexample.  `tweet_gif` does not publish: its upload and
update-status calls are commented out in the source, so on a concrete frame it
runs to completion, saves the frames, encodes the GIF and composes the status,
yet emits no posting action at all. -/
theorem tweet_gif_posts_nothing :
    (tweet_gif geoC7 "Confirmed" "2020-03-12" 5).map
        (fun p => (p.1.map isPost, p.2)) =
      some ([false, false, false],
        "5 day trend of confirmed COVID-19 cases in the DMV by county, as of 3/12/20. Source: @usafacts #MadewithUSAFacts.") :=
  rfl

/-- C7, amended.  For both series, `tweet_image` ends by publishing its
composed status with the rendered image attached (save, upload, post — in
that order), while `tweet_gif` renders its frames and GIF and composes its
status but performs no publishing action. -/
theorem map_scripts_post_semantics :
    ∀ (g : GeoFrame) (series today : String) (ndays topN : Nat),
      (series = "Confirmed" ∨ series = "Deaths") →
      g.dateCols ≠ [] → g.rows ≠ [] → ndays ≠ 0 →
      (∃ path status, tweet_image g series topN =
          some ([MapAction.savefig path, MapAction.uploadMedia path,
                 MapAction.updateStatus status], status)) ∧
      (∃ acts status, tweet_gif g series today ndays = some (acts, status) ∧
        acts.countP isPost = 0) := by
  intro g series today ndays topN hser hcols hrows hnd
  have hre : g.rows.isEmpty = false := List.isEmpty_eq_false.mpr hrows
  obtain ⟨lastCol, hlc⟩ : ∃ a, g.dateCols.getLast? = some a := by
    cases hx : g.dateCols.getLast? with
    | none => exact absurd (List.getLast?_eq_none_iff.mp hx) hcols
    | some a => exact ⟨a, rfl⟩
  have hvars : pyDropFrom g.dateCols ((g.dateCols.length : Int) - (ndays : Int)) ≠ [] :=
    pyDropFrom_tail_ne_nil g.dateCols ndays hcols hnd
  obtain ⟨lastVar, hlv⟩ : ∃ a,
      (pyDropFrom g.dateCols ((g.dateCols.length : Int) - (ndays : Int))).getLast? = some a := by
    cases hx : (pyDropFrom g.dateCols ((g.dateCols.length : Int) - (ndays : Int))).getLast? with
    | none => exact absurd (List.getLast?_eq_none_iff.mp hx) hvars
    | some a => exact ⟨a, rfl⟩
  constructor
  · rcases hser with hser | hser <;> subst hser <;>
      · simp only [tweet_image, hlc, hre, seriesPhrasing]
        exact ⟨_, _, rfl⟩
  · rcases hser with hser | hser <;> subst hser <;>
      · simp only [tweet_gif, hlv, hre, seriesPhrasing]
        refine ⟨_, _, rfl, ?_⟩
        refine List.countP_eq_zero.mpr ?_
        intro a ha
        rcases List.mem_append.1 ha with h | h
        · obtain ⟨v, -, rfl⟩ := List.mem_map.1 h
          simp [isPost]
        · simp only [List.mem_singleton] at h
          subst h
          simp [isPost]

/-- Witness for the amended C7 at the concrete frame `geoC7`. -/
theorem map_scripts_post_semantics_witness :
    (∃ path status, tweet_image geoC7 "Confirmed" 5 =
        some ([MapAction.savefig path, MapAction.uploadMedia path,
               MapAction.updateStatus status], status)) ∧
    (∃ acts status, tweet_gif geoC7 "Confirmed" "2020-03-12" 5 = some (acts, status) ∧
      acts.countP isPost = 0) :=
  map_scripts_post_semantics geoC7 "Confirmed" "2020-03-12" 5 5 (Or.inl rfl)
    (by decide) (by decide) (by decide)

theorem findIdx?_some_getElem {α : Type} {p : α → Bool} :
    ∀ {l : List α} {i : Nat}, l.findIdx? p = some i →
      ∃ a, l[i]? = some a ∧ p a = true := by
  intro l
  induction l with
  | nil => intro i h; simp [List.findIdx?_nil] at h
  | cons x xs ih =>
      intro i h
      rw [List.findIdx?_cons] at h
      by_cases hp : p x = true
      · rw [if_pos hp] at h
        injection h with h
        subst h
        exact ⟨x, List.getElem?_cons_zero, hp⟩
      · rw [if_neg hp, List.findIdx?_succ] at h
        obtain ⟨j, hj, hji⟩ := Option.map_eq_some'.mp h
        obtain ⟨a, ha, hpa⟩ := ih hj
        refine ⟨a, ?_, hpa⟩
        rw [← hji, List.getElem?_cons_succ]
        exact ha

theorem findIdx?_set_same {α : Type} {p : α → Bool} {a : α} (ha : p a = true) :
    ∀ {l : List α} {i : Nat}, l.findIdx? p = some i →
      (l.set i a).findIdx? p = some i := by
  intro l
  induction l with
  | nil => intro i h; simp [List.findIdx?_nil] at h
  | cons x xs ih =>
      intro i h
      rw [List.findIdx?_cons] at h
      by_cases hp : p x = true
      · rw [if_pos hp] at h
        injection h with h
        subst h
        have hset : (x :: xs).set 0 a = a :: xs := rfl
        rw [hset, List.findIdx?_cons, if_pos ha]
      · rw [if_neg hp, List.findIdx?_succ] at h
        obtain ⟨j, hj, hji⟩ := Option.map_eq_some'.mp h
        subst hji
        have hset : (x :: xs).set (j + 1) a = x :: xs.set j a := rfl
        rw [hset, List.findIdx?_cons, if_neg hp, List.findIdx?_succ, ih hj]
        rfl

theorem updatedSunRow_fields (r : SunRow) (cd : String) (s : Rat) :
    (updatedSunRow r cd s).city = r.city ∧ (updatedSunRow r cd s).rtype = r.rtype ∧
    (updatedSunRow r cd s).n_runs = r.n_runs + 1 ∧
    (updatedSunRow r cd s).avg_quality_score =
      (r.avg_quality_score * (r.n_runs : Rat) + s) / ((r.n_runs : Rat) + 1) := by
  unfold updatedSunRow bumpCategory
  split_ifs <;> exact ⟨rfl, rfl, rfl, rfl⟩

theorem update_log_record_at {log : SunLog} {city rtype : String} {i : Nat}
    {r : SunRow}
    (hf : log.rows.findIdx? (fun q => q.city == city && q.rtype == rtype) = some i)
    (hg : log.rows[i]? = some r) (cd : String) (s : Rat) :
    update_log_record log city rtype cd s =
      some ⟨log.rows.set i (updatedSunRow r cd s),
            log.strayColumns ++ strayWriteFor i r s⟩ := by
  simp only [update_log_record, hf, hg]

theorem foldScores_stats :
    ∀ (scores : List (String × Rat)) (log : SunLog) (city rtype : String)
      (i : Nat) (r : SunRow),
      log.rows.findIdx? (fun q => q.city == city && q.rtype == rtype) = some i →
      log.rows[i]? = some r →
      ∃ log2, foldScores city rtype scores log = some log2 ∧
        ∃ r2, log2.rows[i]? = some r2 ∧
          r2.n_runs = r.n_runs + scores.length ∧
          r2.avg_quality_score * ((r.n_runs : Rat) + (scores.length : Rat)) =
            r.avg_quality_score * (r.n_runs : Rat) +
              (scores.map (fun p => p.2)).sum := by
  intro scores
  induction scores with
  | nil =>
      intro log city rtype i r hf hg
      exact ⟨log, rfl, r, hg, by simp, by simp⟩
  | cons hd rest ih =>
      intro log city rtype i r hf hg
      obtain ⟨cd, s⟩ := hd
      have hstep := update_log_record_at hf hg cd s
      have hbound : i < log.rows.length := (List.getElem?_eq_some_iff.mp hg).1
      have hpred : (fun q : SunRow => q.city == city && q.rtype == rtype) r = true := by
        obtain ⟨a, ha, hpa⟩ := findIdx?_some_getElem hf
        rw [hg] at ha
        injection ha with ha
        exact ha ▸ hpa
      obtain ⟨hc1, hc2, hc3, hc4⟩ := updatedSunRow_fields r cd s
      have hpred1 : (fun q : SunRow => q.city == city && q.rtype == rtype)
          (updatedSunRow r cd s) = true := by
        show ((updatedSunRow r cd s).city == city &&
          (updatedSunRow r cd s).rtype == rtype) = true
        rw [hc1, hc2]
        exact hpred
      have hf2 : ((log.rows.set i (updatedSunRow r cd s)).findIdx?
          (fun q => q.city == city && q.rtype == rtype)) = some i :=
        findIdx?_set_same (p := fun q : SunRow => q.city == city && q.rtype == rtype)
          hpred1 hf
      have hg2 : (log.rows.set i (updatedSunRow r cd s))[i]? =
          some (updatedSunRow r cd s) := List.getElem?_set_self hbound
      obtain ⟨log2, hfold, r2, hg3, hn, havg⟩ :=
        ih ⟨log.rows.set i (updatedSunRow r cd s),
            log.strayColumns ++ strayWriteFor i r s⟩ city rtype i
          (updatedSunRow r cd s) hf2 hg2
      refine ⟨log2, ?_, r2, hg3, ?_, ?_⟩
      · simp only [foldScores, hstep]
        exact hfold
      · rw [hn, hc3]
        simp [List.length_cons]
        omega
      · have hnz : ((r.n_runs : Rat) + 1) ≠ 0 := by positivity
        have h3 : (updatedSunRow r cd s).avg_quality_score *
            ((r.n_runs : Rat) + 1) =
            r.avg_quality_score * (r.n_runs : Rat) + s := by
          rw [hc4]
          field_simp
        have hcast : ((updatedSunRow r cd s).n_runs : Rat) = (r.n_runs : Rat) + 1 := by
          rw [hc3]
          push_cast
          ring
        have hlen : (((cd, s) :: rest).length : Rat) = (rest.length : Rat) + 1 := by
          push_cast [List.length_cons]
          ring
        have hsum : (((cd, s) :: rest).map (fun p => p.2)).sum =
            s + (rest.map (fun p => p.2)).sum := by
          simp
        rw [hlen, hsum]
        have hgoal : r2.avg_quality_score *
            ((r.n_runs : Rat) + ((rest.length : Rat) + 1)) =
            r2.avg_quality_score *
              (((updatedSunRow r cd s).n_runs : Rat) + (rest.length : Rat)) := by
          rw [hcast]
          ring
        rw [hgoal, havg, hcast, h3]
        ring

/-- C9.  `update_log_record` maintains the running arithmetic mean: one call
replaces the matched row by a row whose `avg_quality_score` is
`(old avg * old n_runs + score) / (old n_runs + 1)` and whose `n_runs` is one
larger, and consequently a sequence of calls starting from `n_runs = 0` leaves
`avg_quality_score` equal to the exact rational mean of all the scores passed
in. -/
theorem update_log_record_running_mean :
    ∀ (log : SunLog) (city rtype : String) (i : Nat) (r : SunRow)
      (scores : List (String × Rat)),
      log.rows.findIdx? (fun q => q.city == city && q.rtype == rtype) = some i →
      log.rows[i]? = some r →
      (∀ (cd : String) (s : Rat),
        ∃ log2 r2, update_log_record log city rtype cd s = some log2 ∧
          log2.rows[i]? = some r2 ∧
          r2.avg_quality_score =
            (r.avg_quality_score * (r.n_runs : Rat) + s) / ((r.n_runs : Rat) + 1) ∧
          r2.n_runs = r.n_runs + 1) ∧
      (r.n_runs = 0 → scores ≠ [] →
        ∃ log2 r2, foldScores city rtype scores log = some log2 ∧
          log2.rows[i]? = some r2 ∧
          r2.avg_quality_score =
            (scores.map (fun p => p.2)).sum / (scores.length : Rat) ∧
          r2.n_runs = scores.length) := by
  intro log city rtype i r scores hf hg
  constructor
  · intro cd s
    have hbound : i < log.rows.length := (List.getElem?_eq_some_iff.mp hg).1
    exact ⟨_, updatedSunRow r cd s, update_log_record_at hf hg cd s,
      List.getElem?_set_self hbound, (updatedSunRow_fields r cd s).2.2.2,
      (updatedSunRow_fields r cd s).2.2.1⟩
  · intro hn0 hne
    obtain ⟨log2, hfold, r2, hg2, hnr, havg⟩ :=
      foldScores_stats scores log city rtype i r hf hg
    refine ⟨log2, r2, hfold, hg2, ?_, by rw [hnr, hn0]; simp⟩
    have hlz : (scores.length : Rat) ≠ 0 := by
      have hzn : scores.length ≠ 0 := by
        cases scores with
        | nil => exact absurd rfl hne
        | cons a t => simp
      exact_mod_cast hzn
    rw [hn0] at havg
    push_cast at havg
    simp only [zero_add, zero_mul] at havg
    rw [eq_div_iff hlz]
    linarith

/-- Witness for C9: two runs with scores 10 and 20 on a fresh record leave the
average at exactly their mean. -/
theorem update_log_record_running_mean_witness :
    ∃ log2 r2, foldScores "DC" "sunset" scoresC9 sunLog0 = some log2 ∧
      log2.rows[0]? = some r2 ∧
      r2.avg_quality_score = (scoresC9.map (fun p => p.2)).sum / (scoresC9.length : Rat) ∧
      r2.n_runs = scoresC9.length :=
  (update_log_record_running_mean sunLog0 "DC" "sunset" 0
      ⟨"DC", "sunset", "2019-12-31", 0, 0, 0, 0, 0, 0⟩ scoresC9 rfl rfl).2
    rfl (by simp [scoresC9])

theorem addLag_map_proj :
    ∀ (prev : Option Int) (l : List (String × Date × Int)),
      (addLag prev l).map (fun r => (r.state, r.date, r.value)) = l := by
  intro prev l
  induction l generalizing prev with
  | nil => rfl
  | cons t rest ih =>
      obtain ⟨s, d, v⟩ := t
      simp only [addLag, List.map_cons, ih]

theorem selGroups_nodup (f : WideFrame) (st : String) : (selGroups f st).Nodup := by
  unfold selGroups
  split
  · exact (show (["DC", "MD", "VA"] : List String).Nodup by decide).sublist
      (List.filter_sublist _)
  · split
    · exact List.nodup_nil
    · simp

theorem selRows_filter_group (f : WideFrame) (st s : String)
    (hs : s ∈ selGroups f st) :
    (selRows f st).filter (fun r => r.state == s) =
      f.rows.filter (fun r => r.state == s) := by
  by_cases hAll : st = "All"
  · have hs3 : s = "DC" ∨ s = "MD" ∨ s = "VA" := by
      unfold selGroups at hs
      rw [if_pos hAll] at hs
      have := (List.mem_filter.mp hs).1
      simpa using this
    unfold selRows
    rw [if_pos hAll, List.filter_filter]
    refine List.filter_congr ?_
    intro r _
    cases hxs : (r.state == s) with
    | false => simp
    | true =>
        have hrs : r.state = s := by simpa using hxs
        rcases hs3 with h | h | h <;> subst h <;> simp [hrs]
  · have hst : s = st := by
      unfold selGroups at hs
      rw [if_neg hAll] at hs
      split at hs
      · exact absurd hs (List.not_mem_nil s)
      · simpa using hs
    subst hst
    unfold selRows
    rw [if_neg hAll, List.filter_filter]
    refine List.filter_congr ?_
    intro r _
    simp

theorem meltGroups_count (f : WideFrame) (st : String) (s : String) (d : Date)
    (hN : f.dateCols.Nodup) (hs : s ∈ selGroups f st) (hd : d ∈ f.dateCols)
    (hcut : cutoffDate.lt d = true) :
    List.countP
        (fun t : String × Date × Int => (t.1 == s && t.2.1 == d) && cutoffDate.lt t.2.1)
        (meltGroups f.dateCols (selRows f st) (selGroups f st)) = 1 := by
  unfold meltGroups
  rw [List.countP_flatMap]
  have hF : ∀ p ∈ f.dateCols.enum,
      (List.countP
          (fun t : String × Date × Int =>
            (t.1 == s && t.2.1 == d) && cutoffDate.lt t.2.1) ∘
        (fun p : Nat × Date => (selGroups f st).map
          (fun s' => (s', p.2,
            groupSum ((selRows f st).filter (fun r => r.state == s')) p.1)))) p
      = if p.2 = d then 1 else 0 := by
    intro p _
    show List.countP _ ((selGroups f st).map _) = if p.2 = d then 1 else 0
    rw [List.countP_map]
    by_cases hdd : p.2 = d
    · rw [if_pos hdd]
      have hcong : List.countP
          ((fun t : String × Date × Int =>
            (t.1 == s && t.2.1 == d) && cutoffDate.lt t.2.1) ∘
            (fun s' => (s', p.2,
              groupSum ((selRows f st).filter (fun r => r.state == s')) p.1)))
          (selGroups f st)
          = List.countP (fun s' => s' == s) (selGroups f st) := by
        refine List.countP_congr ?_
        intro x _
        rw [hdd]
        simp [hcut]
      rw [hcong, ← List.count_eq_countP]
      exact List.count_eq_one_of_mem (selGroups_nodup f st) hs
    · rw [if_neg hdd]
      refine List.countP_eq_zero.mpr ?_
      intro x _
      simp [hdd]
  rw [List.map_congr_left hF]
  rw [List.map_congr_left
    (show ∀ p ∈ f.dateCols.enum,
      (fun p : Nat × Date => if p.2 = d then (1 : Nat) else 0) p
      = ((fun d' : Date => if d' = d then 1 else 0) ∘ Prod.snd) p
      from fun p _ => rfl)]
  rw [← List.map_map, List.enum_map_snd]
  have hsum : ∀ (l : List Date),
      (l.map (fun d' => if d' = d then (1 : Nat) else 0)).sum = l.count d := by
    intro l
    induction l with
    | nil => rfl
    | cons x xs ihx =>
        simp only [List.map_cons, List.sum_cons, List.count_cons, ihx]
        by_cases hxd : x = d
        · simp [hxd, Nat.add_comm]
        · simp [hxd]
  rw [hsum]
  exact List.count_eq_one_of_mem hN hd

/-- C4.  For a wide frame with distinct date columns, whenever
`tidy_timeseries` succeeds its output is the tidy long format the spec
describes: every row belongs to one of the selected state groups, carries a
date of the frame strictly after 2020-03-09, and its value is the sum of that
state county cells in the corresponding date column; and for every selected
state and every frame date after the cutoff there is exactly one such row. -/
theorem tidy_timeseries_shape :
    ∀ (f : WideFrame) (st : String) (tidy : List TidyRow),
      f.dateCols.Nodup →
      tidy_timeseries f st = some tidy →
      (∀ r ∈ tidy,
        r.state ∈ selGroups f st ∧
        r.date ∈ f.dateCols ∧
        cutoffDate.lt r.date = true ∧
        r.value = groupSum (f.rows.filter (fun row => row.state == r.state))
          (f.dateCols.indexOf r.date)) ∧
      (∀ s ∈ selGroups f st, ∀ d ∈ f.dateCols, cutoffDate.lt d = true →
        (tidy.filter (fun r => r.state == s && r.date == d)).length = 1) := by
  intro f st tidy hN ht
  have htidy : tidy = addLag none
      ((meltGroups f.dateCols (selRows f st) (selGroups f st)).filter
        (fun t => cutoffDate.lt t.2.1)) := by
    simp only [tidy_timeseries] at ht
    split at ht
    · exact absurd ht (by simp)
    · injection ht with ht
      exact ht.symm
  subst htidy
  constructor
  · intro r hr
    have hproj : (r.state, r.date, r.value) ∈
        (meltGroups f.dateCols (selRows f st) (selGroups f st)).filter
          (fun t => cutoffDate.lt t.2.1) := by
      rw [← addLag_map_proj none
        ((meltGroups f.dateCols (selRows f st) (selGroups f st)).filter
          (fun t => cutoffDate.lt t.2.1))]
      exact List.mem_map_of_mem _ hr
    have hcut : cutoffDate.lt r.date = true := by
      have := List.of_mem_filter hproj
      simpa using this
    have hmelt : (r.state, r.date, r.value) ∈
        meltGroups f.dateCols (selRows f st) (selGroups f st) :=
      List.mem_of_mem_filter hproj
    unfold meltGroups at hmelt
    rw [List.mem_flatMap] at hmelt
    obtain ⟨p, hp, hin⟩ := hmelt
    rw [List.mem_map] at hin
    obtain ⟨s', hs', heq⟩ := hin
    obtain ⟨h1, h2, h3⟩ : s' = r.state ∧ p.2 = r.date ∧
        groupSum ((selRows f st).filter (fun row => row.state == s')) p.1 = r.value := by
      simpa using heq
    subst h1
    have hgetp : f.dateCols[p.1]? = some p.2 := List.mem_enum_iff_getElem?.mp hp
    have hmemd : r.date ∈ f.dateCols := by
      rw [← h2]
      exact List.getElem?_mem hgetp
    obtain ⟨hplt, hval⟩ := List.getElem?_eq_some_iff.mp hgetp
    have hidx : f.dateCols.indexOf r.date = p.1 := by
      rw [← h2, ← hval]
      exact List.indexOf_getElem hN p.1 hplt
    refine ⟨hs', hmemd, hcut, ?_⟩
    rw [hidx, ← selRows_filter_group f st r.state hs']
    exact h3.symm
  · intro s hs d hd hcut
    rw [show ((addLag none
        ((meltGroups f.dateCols (selRows f st) (selGroups f st)).filter
          (fun t => cutoffDate.lt t.2.1))).filter
        (fun r => r.state == s && r.date == d)).length
      = List.countP (fun r : TidyRow => r.state == s && r.date == d)
          (addLag none
            ((meltGroups f.dateCols (selRows f st) (selGroups f st)).filter
              (fun t => cutoffDate.lt t.2.1)))
      from (List.countP_eq_length_filter _ _).symm]
    rw [show List.countP (fun r : TidyRow => r.state == s && r.date == d)
          (addLag none
            ((meltGroups f.dateCols (selRows f st) (selGroups f st)).filter
              (fun t => cutoffDate.lt t.2.1)))
      = List.countP (fun t : String × Date × Int => t.1 == s && t.2.1 == d)
          ((addLag none
            ((meltGroups f.dateCols (selRows f st) (selGroups f st)).filter
              (fun t => cutoffDate.lt t.2.1))).map
            (fun r => (r.state, r.date, r.value)))
      from (List.countP_map
        (fun t : String × Date × Int => t.1 == s && t.2.1 == d)
        (fun r : TidyRow => (r.state, r.date, r.value)) _).symm]
    rw [addLag_map_proj, List.countP_filter]
    exact meltGroups_count f st s d hN hs hd hcut

/-- Witness for C4 at the concrete frame `frameC1Confirmed` and state DC. -/
theorem tidy_timeseries_shape_witness :
    (∀ r ∈ tidyC4,
      r.state ∈ selGroups frameC1Confirmed "DC" ∧
      r.date ∈ frameC1Confirmed.dateCols ∧
      cutoffDate.lt r.date = true ∧
      r.value = groupSum
        (frameC1Confirmed.rows.filter (fun row => row.state == r.state))
        (frameC1Confirmed.dateCols.indexOf r.date)) ∧
    (∀ s ∈ selGroups frameC1Confirmed "DC", ∀ d ∈ frameC1Confirmed.dateCols,
      cutoffDate.lt d = true →
      (tidyC4.filter (fun r => r.state == s && r.date == d)).length = 1) :=
  tidy_timeseries_shape frameC1Confirmed "DC" tidyC4 (by decide) rfl

/-- Witness for the amended C2 at a concrete history and tidy frame where the
guard passes. -/
theorem send_tweet_posts_iff_witness :
    ∃ res, send_tweet histC1 "DC" "Confirmed" tidyC2 "new_cases" = .ok res ∧
      res.posted = newerThanLog (maxDate (tidyC2.map (fun r => r.date)))
        (histMaxFor histC1 "DC") ∧
      res.logEntry.isSome = res.posted :=
  send_tweet_posts_iff_newer_than_location_max histC1 "DC" "Confirmed" tidyC2
    "new_cases" (Or.inl rfl) (by decide)
    ⟨⟨"DC", ⟨2020, 3, 11⟩, 2, some 1, some 1⟩, by decide, rfl⟩

end Twitterbots
